import Mathlib

/-!
Verification development for the `srl` rule-evaluation engine
(solution-mapping algebra, expression evaluation, stratification,
fixpoint driver).  The definitions below are a shallow embedding of
`src/srl/engine/{solutions,expressions,rules,stratification,engine}.py`:
Python dicts become association lists, rdflib graphs become lists of
triples with set-insertion, exceptions become `Except`/`Option`, and
the per-stratum `while` loop becomes fuel-indexed recursion.
Property paths, built-in functions other than comparison operators,
and fresh blank-node generation are outside the fragment exercised by
the theorems and are not embedded.
-/

namespace SRL

/-- Python-level value stored in an rdflib literal's `value` attribute
(`None` for lexical forms the datatype cannot parse).  Floats carry a
rational magnitude plus a NaN flag; infinities are not modelled. -/
inductive PyVal where
  | pybool (b : Bool)
  | pyint (n : Int)
  | pyfloat (q : ℚ) (isNan : Bool)
  | pystr (s : String)
  | pynone
deriving DecidableEq, Repr

/-- An rdflib `Literal`: lexical form, optional language tag, optional
datatype IRI, and the parsed `value` attribute. -/
structure RDFLit where
  lex : String
  lang : Option String
  dt : Option String
  value : PyVal
deriving DecidableEq, Repr

/-- An rdflib node: `URIRef`, `BNode`, or `Literal`. -/
inductive RDFNode where
  | uri (s : String)
  | bnode (label : String)
  | lit (l : RDFLit)
deriving DecidableEq, Repr

abbrev Triple := RDFNode × RDFNode × RDFNode

/-- rdflib `Graph`: a set of triples.  Modelled as a duplicate-free
list; `addTriple` is idempotent insertion. -/
abbrev Graph := List Triple

def addTriple (g : Graph) (t : Triple) : Graph :=
  if t ∈ g then g else g ++ [t]

/-- `str(term)` in Python: IRI string, blank-node label, or the
literal's lexical form. -/
def strOfNode : RDFNode → String
  | .uri s => s
  | .bnode l => l
  | .lit l => l.lex

def xsdNS (s : String) : String := "http://www.w3.org/2001/XMLSchema#" ++ s

def xsdBoolean : String := xsdNS "boolean"
def xsdString : String := xsdNS "string"
def xsdInteger : String := xsdNS "integer"
def xsdDecimal : String := xsdNS "decimal"
def xsdDouble : String := xsdNS "double"
def xsdFloat : String := xsdNS "float"
def xsdInt : String := xsdNS "int"
def xsdLong : String := xsdNS "long"
def xsdShort : String := xsdNS "short"
def xsdByte : String := xsdNS "byte"

/-- The datatypes accepted by `is_numeric` in `expressions.py`. -/
def numericDatatypes : List String :=
  [xsdInteger, xsdDecimal, xsdDouble, xsdFloat,
   xsdInt, xsdLong, xsdShort, xsdByte,
   xsdNS "nonNegativeInteger", xsdNS "positiveInteger",
   xsdNS "unsignedLong", xsdNS "unsignedInt",
   xsdNS "unsignedShort", xsdNS "unsignedByte",
   xsdNS "nonPositiveInteger", xsdNS "negativeInteger"]

def charIsDigit (c : Char) : Bool := 48 ≤ c.toNat && c.toNat ≤ 57

def digitsVal (l : List Char) : Nat :=
  l.foldl (fun n c => n * 10 + (c.toNat - 48)) 0

/-- Strip one leading sign character. -/
def splitSign : List Char → Bool × List Char
  | '-' :: rest => (true, rest)
  | '+' :: rest => (false, rest)
  | l => (false, l)

/-- Split a character list on a separator character (the semantics of
Python `split` / `String.splitOn` for a one-character separator). -/
def splitOnChar (c : Char) : List Char → List (List Char)
  | [] => [[]]
  | x :: rest =>
      let r := splitOnChar c rest
      if x = c then [] :: r
      else
        match r with
        | [] => [[x]]
        | h :: t => (x :: h) :: t

/-- Lexical form of an xsd integer (optional sign, digits). -/
def parseIntLex (s : String) : Option Int :=
  let p := splitSign s.toList
  if p.2.length > 0 && p.2.all charIsDigit then
    some ((if p.1 then -1 else 1) * (digitsVal p.2 : Int))
  else none

/-- Finite decimal lexical form (optional sign, digits, optional
fraction).  Exponents are not modelled. -/
def parseDecLex (s : String) : Option ℚ :=
  let p := splitSign s.toList
  match splitOnChar '.' p.2 with
  | [ip] =>
      if ip.length > 0 && ip.all charIsDigit then
        some ((if p.1 then -1 else 1) * (digitsVal ip : ℚ))
      else none
  | [ip, fp] =>
      if (ip.length > 0 || fp.length > 0) && ip.all charIsDigit && fp.all charIsDigit then
        some ((if p.1 then -1 else 1) *
          ((digitsVal ip : ℚ) + (digitsVal fp : ℚ) / ((10 : ℚ) ^ fp.length)))
      else none
  | _ => none

/-- The `value` attribute rdflib computes for a literal with the given
lexical form and datatype (plain and `xsd:string` literals carry the
string itself; unparseable or unknown-datatype lexicals carry `None`). -/
def rdflibValue (lex : String) (dt : Option String) : PyVal :=
  match dt with
  | none => .pystr lex
  | some d =>
      if d = xsdBoolean then
        if lex = "true" || lex = "1" then .pybool true
        else if lex = "false" || lex = "0" then .pybool false
        else .pynone
      else if d = xsdString then .pystr lex
      else if d = xsdDecimal || d = xsdDouble || d = xsdFloat then
        if lex = "NaN" then .pyfloat 0 true
        else match parseDecLex lex with
          | some q => .pyfloat q false
          | none => .pynone
      else if d ∈ numericDatatypes then
        match parseIntLex lex with
        | some n => .pyint n
        | none => .pynone
      else .pynone

/-- Convenience constructor: a typed literal with its rdflib-parsed value. -/
def mkTypedLit (lex : String) (dt : String) : RDFLit :=
  ⟨lex, none, some dt, rdflibValue lex (some dt)⟩

/-! ### Solution mappings (`solutions.py`)

A `SolutionMapping` is a Python dict keyed by variable name; we model
it as an association list in insertion order (Python dicts preserve
insertion order and have unique keys). -/

abbrev SolutionMapping := List (String × RDFNode)

def lookupSM : SolutionMapping → String → Option RDFNode
  | [], _ => none
  | (k, v) :: rest, k' => if k = k' then some v else lookupSM rest k'

/-- Python dict assignment `d[k] = v`: overwrite in place if present,
else append. -/
def dictInsert (m : SolutionMapping) (k : String) (v : RDFNode) : SolutionMapping :=
  if (lookupSM m k).isSome then
    m.map (fun kv => if kv.1 = k then (k, v) else kv)
  else m ++ [(k, v)]

/-- `compatible(mu1, mu2)`: the two dicts agree on every common key. -/
def compatible (mu1 mu2 : SolutionMapping) : Bool :=
  mu1.all (fun kv =>
    match lookupSM mu2 kv.1 with
    | some w => kv.2 = w
    | none => true)

/-- The dict `{**m1, **m2}`: keys of `m1` in order (values overridden
by `m2` where both are present) followed by the new keys of `m2`. -/
def mergeDicts (m1 m2 : SolutionMapping) : SolutionMapping :=
  m1.map (fun kv => (kv.1, (lookupSM m2 kv.1).getD kv.2)) ++
    m2.filter (fun kv => (lookupSM m1 kv.1).isNone)

/-- `merge(mu1, mu2)`: `None` when incompatible. -/
def merge (mu1 mu2 : SolutionMapping) : Option SolutionMapping :=
  if compatible mu1 mu2 then some (mergeDicts mu1 mu2) else none

/-- `join(omega1, omega2)`: nested loops, merging compatible pairs. -/
def join (omega1 omega2 : List SolutionMapping) : List SolutionMapping :=
  omega1.flatMap (fun mu1 => omega2.filterMap (fun mu2 => merge mu1 mu2))

/-- `minus(omega1, omega2)`: keep the mappings of `omega1` compatible
with no mapping of `omega2`. -/
def minus (omega1 omega2 : List SolutionMapping) : List SolutionMapping :=
  omega1.filter (fun mu1 => !(omega2.any (fun mu2 => compatible mu1 mu2)))

/-- `extend(mu, var, value)`: `{**mu.bindings, var.name: value}`. -/
def extend (mu : SolutionMapping) (v : String) (t : RDFNode) : SolutionMapping :=
  dictInsert mu v t

/-! ### AST terms and patterns (`ast/nodes.py`) -/

/-- An AST term: variable, IRI, literal (lexical, optional language,
optional datatype IRI), or labelled blank node.  Property paths are
not embedded (the theorems below only concern plain-IRI predicates). -/
inductive ATerm where
  | avar (name : String)
  | airi (value : String)
  | alit (value : String) (language : Option String) (datatype : Option String)
  | abnode (label : String)
deriving DecidableEq, Repr

/-- `TriplePattern` and `TripleTemplate` share the same shape. -/
structure TriplePattern where
  subject : ATerm
  predicate : ATerm
  object : ATerm
deriving DecidableEq, Repr

abbrev TripleTemplate := TriplePattern

/-- Conversion of a ground AST term to an rdflib node, as performed by
`substitute_term` / `pattern_term` / `_ast_to_rdf` in `solutions.py`.
rdflib parses the literal's `value` attribute at construction.
(The fresh-`BNode()` branch for empty labels is not modelled; blank
nodes carry their label.) -/
def groundToRDF : ATerm → Option RDFNode
  | .avar _ => none
  | .airi v => some (.uri v)
  | .alit v lg dt =>
      match dt with
      | some d => some (.lit ⟨v, none, some d, rdflibValue v (some d)⟩)
      | none =>
          match lg with
          | some tag => some (.lit ⟨v, some tag, none, .pystr v⟩)
          | none => some (.lit ⟨v, none, none, .pystr v⟩)
  | .abnode l => some (.bnode l)

/-- `substitute_term(term, mu)`: variables are looked up (`None`
models the `ValueError` on an unbound variable), ground terms are
converted. -/
def substituteTerm (t : ATerm) (mu : SolutionMapping) : Option RDFNode :=
  match t with
  | .avar n => lookupSM mu n
  | t => groundToRDF t

/-- One slot of the rdflib query built by `graphMatch`: `None` is a
wildcard. -/
def slotMatches (q : Option RDFNode) (x : RDFNode) : Bool :=
  match q with
  | none => true
  | some v => v = x

/-- `graphMatch(G, tp)` for a plain (non-path) predicate: scan the
graph with constants narrowing the query, then bind the variable slots
of each matched triple in subject, predicate, object order (a repeated
variable name overwrites the earlier dict entry, exactly as the Python
`bindings[name] = term` assignments do). -/
def graphMatch (g : Graph) (tp : TriplePattern) : List SolutionMapping :=
  let qs := groundToRDF tp.subject
  let qp := groundToRDF tp.predicate
  let qo := groundToRDF tp.object
  (g.filter (fun t => slotMatches qs t.1 && slotMatches qp t.2.1 && slotMatches qo t.2.2)).map
    (fun t =>
      let b : SolutionMapping := []
      let b := match tp.subject with | .avar n => dictInsert b n t.1 | _ => b
      let b := match tp.predicate with | .avar n => dictInsert b n t.2.1 | _ => b
      let b := match tp.object with | .avar n => dictInsert b n t.2.2 | _ => b
      b)

/-- `substitute_triple_template(template, mu)`: `None` if any variable
is unbound. -/
def substituteTripleTemplate (tpl : TripleTemplate) (mu : SolutionMapping) : Option Triple :=
  match substituteTerm tpl.subject mu, substituteTerm tpl.predicate mu,
        substituteTerm tpl.object mu with
  | some s, some p, some o => some (s, p, o)
  | _, _, _ => none

/-! ### Expression evaluation (`expressions.py`)

Only the fragment reached by the claims is embedded: variables,
ground-term constants, and the relational binary operators.  Logical,
arithmetic and built-in operators are independent branches of
`eval_binary_op` / `eval_builtin` and are not needed here. -/

/-- `is_numeric(term)`: the literal's datatype is in the numeric list. -/
def isNumeric (l : RDFLit) : Bool :=
  match l.dt with
  | some d => d ∈ numericDatatypes
  | none => false

/-- A Python float as used by comparisons: a rational or NaN. -/
inductive NumV where
  | num (q : ℚ)
  | nan
deriving DecidableEq, Repr

/-- Python `float(value)` (`none` models a raised exception). -/
def floatOfPy : PyVal → Option NumV
  | .pybool b => some (.num (if b then 1 else 0))
  | .pyint n => some (.num (n : ℚ))
  | .pyfloat q isNan => some (if isNan then .nan else .num q)
  | .pystr s => (parseDecLex s).map .num
  | .pynone => none

/-- Python `int(value)` (`none` models a raised exception; `int` of a
float truncates toward zero, of NaN raises). -/
def intOfPy : PyVal → Option NumV
  | .pybool b => some (.num (if b then 1 else 0))
  | .pyint n => some (.num (n : ℚ))
  | .pyfloat q isNan => if isNan then none else some (.num ((q.num / (q.den : Int) : Int) : ℚ))
  | .pystr s => (parseIntLex s).map (fun n => .num (n : ℚ))
  | .pynone => none

/-- `numeric_value(term)`: `float` for double/float/decimal datatypes,
`int` otherwise (`none` models a raised conversion exception). -/
def numericValue (l : RDFLit) : Option NumV :=
  if l.dt = some xsdDouble || l.dt = some xsdFloat then floatOfPy l.value
  else if l.dt = some xsdDecimal then floatOfPy l.value
  else intOfPy l.value

/-- Python comparison of two float values folded to -1/0/1: any
comparison involving NaN is false, so NaN pairs yield 0. -/
def numCompare : NumV → NumV → Int
  | .num a, .num b => if a < b then -1 else if a > b then 1 else 0
  | _, _ => 0

/-- Python `<` on `str`: codepoint-lexicographic comparison. -/
def charListLt : List Char → List Char → Bool
  | [], [] => false
  | [], _ :: _ => true
  | _ :: _, [] => false
  | c1 :: t1, c2 :: t2 =>
      if c1.toNat < c2.toNat then true
      else if c2.toNat < c1.toNat then false
      else charListLt t1 t2

def strLtB (s1 s2 : String) : Bool := charListLt s1.toList s2.toList

/-- Codepoint-lexicographic string comparison folded to -1/0/1
(Python `<` on `str`). -/
def strCompare (s1 s2 : String) : Int :=
  if strLtB s1 s2 then -1 else if strLtB s2 s1 then 1 else 0

def dtStrOrNone : Option String → Bool
  | none => true
  | some d => d = xsdString

/-- `rdf_equal(term1, term2)`: term equality, then numeric value
equality (exceptions caught as `False`), then string equality for
matching or string-like datatypes. -/
def rdfEqual (t1 t2 : RDFNode) : Bool :=
  if t1 = t2 then true
  else
    match t1, t2 with
    | .lit l1, .lit l2 =>
        if isNumeric l1 && isNumeric l2 then
          match numericValue l1, numericValue l2 with
          | some (.num a), some (.num b) => a = b
          | _, _ => false
        else if l1.dt = l2.dt || (dtStrOrNone l1.dt && dtStrOrNone l2.dt) then
          l1.lex = l2.lex
        else false
    | _, _ => false

/-- `rdf_compare(term1, term2)`: numeric when both operands are
numeric literals (`none` models the uncaught conversion exception),
otherwise Python string comparison of the terms' string forms — there
is no error case for non-numeric operands. -/
def rdfCompare (t1 t2 : RDFNode) : Option Int :=
  match t1, t2 with
  | .lit l1, .lit l2 =>
      if isNumeric l1 && isNumeric l2 then
        match numericValue l1, numericValue l2 with
        | some v1, some v2 => some (numCompare v1 v2)
        | _, _ => none
      else some (strCompare l1.lex l2.lex)
  | t1, t2 => some (strCompare (strOfNode t1) (strOfNode t2))

/-- Lowercased Python `str(value)` for the boolean-literal fallback in
`effective_boolean_value`. -/
def pyStrLower : PyVal → String
  | .pybool b => if b then "true" else "false"
  | .pyint n => toString n
  | .pyfloat _ _ => "float"
  | .pystr s => (s.toList.map Char.toLower).asString
  | .pynone => "none"

/-- `effective_boolean_value(term)` from `expressions.py`: boolean
literals by value; `xsd:string` or datatype-less literals (including
language-tagged ones, whose rdflib datatype is `None`) by non-empty
lexical form; only the four datatypes `xsd:integer/decimal/double/
float` numerically (zero and NaN are false, conversion errors are
false); everything else — including `None` and every other numeric
datatype — is false. -/
def effectiveBooleanValue : Option RDFNode → Bool
  | none => false
  | some t =>
      match t with
      | .lit l =>
          if l.dt = some xsdBoolean then
            match l.value with
            | .pybool b => b
            | v => pyStrLower v = "true" || pyStrLower v = "1"
          else if l.dt = some xsdString || l.dt = none then
            decide (l.lex ≠ "")
          else if l.dt = some xsdInteger || l.dt = some xsdDecimal ||
                  l.dt = some xsdDouble || l.dt = some xsdFloat then
            match floatOfPy l.value with
            | some (.num q) => decide (q ≠ 0)
            | some .nan => false
            | none => false
          else false
      | _ => false

/-- The boolean literal `RDFLiteral(result, datatype=XSD.boolean)`. -/
def boolLit (b : Bool) : RDFNode :=
  .lit ⟨if b then "true" else "false", none, some xsdBoolean, .pybool b⟩

/-- Relational binary operators (the embedded subset of
`BinaryOperator`). -/
inductive BinOpKind where
  | opEq | opNe | opLt | opLe | opGt | opGe
deriving DecidableEq, Repr

/-- The comparison dispatch of `eval_binary_op` once both operands are
evaluated and non-error. -/
def applyCmpOp (op : BinOpKind) (a b : RDFNode) : Option RDFNode :=
  match op with
  | .opEq => some (boolLit (rdfEqual a b))
  | .opNe => some (boolLit (!(rdfEqual a b)))
  | .opLt => (rdfCompare a b).map (fun c => boolLit (decide (c < 0)))
  | .opLe => (rdfCompare a b).map (fun c => boolLit (decide (c ≤ 0)))
  | .opGt => (rdfCompare a b).map (fun c => boolLit (decide (c > 0)))
  | .opGe => (rdfCompare a b).map (fun c => boolLit (decide (c ≥ 0)))

/-- Embedded expressions: variables, ground-term constants, relational
binary operations. -/
inductive Expr where
  | evar (name : String)
  | cst (t : ATerm)
  | bin (op : BinOpKind) (l r : Expr)
deriving DecidableEq, Repr

/-- `eval_expr(expr, mu, G)` on the embedded fragment: an unbound
variable raises `EvaluationError`, caught and returned as `None`;
binary comparisons evaluate both sides, propagate `None`, and fold the
comparison to a boolean literal. -/
def evalExpr (e : Expr) (mu : SolutionMapping) : Option RDFNode :=
  match e with
  | .evar n => lookupSM mu n
  | .cst t => groundToRDF t
  | .bin op l r =>
      match evalExpr l mu, evalExpr r mu with
      | some a, some b => applyCmpOp op a b
      | _, _ => none

/-! ### Rule bodies and their evaluation (`rules.py`) -/

/-- An element of a negation sub-body.  The AST type
`NegationElement.body_patterns` is declared as
`List[Union[TriplePattern, ConditionExpression]]`, so a negation body
holds only triple patterns and filters. -/
inductive NegItem where
  | pattern (tp : TriplePattern)
  | filter (e : Expr)

/-- A rule body element: triple pattern, `FILTER`, `NOT { ... }`, or
`BIND`. -/
inductive BodyElement where
  | pattern (tp : TriplePattern)
  | filter (e : Expr)
  | negation (body : List NegItem)
  | bind (v : String) (e : Expr)

/-- `Rule`: head templates and body elements. -/
structure Rule where
  head : List TripleTemplate
  body : List BodyElement

/-- `RuleSet.rules`. -/
abbrev RuleSet := List Rule

/-- `eval_body_element` restricted to the two element kinds that can
occur inside a negation body. -/
def evalNegItem (it : NegItem) (omega : List SolutionMapping) (g : Graph) :
    List SolutionMapping :=
  match it with
  | .pattern tp => join omega (graphMatch g tp)
  | .filter e => omega.filter (fun mu => effectiveBooleanValue (evalExpr e mu))

/-- The inner loop of `eval_negation`: evaluate the sub-body elements
in sequence with the early `break` on an empty solution list. -/
def evalNegSeq (items : List NegItem) (omega : List SolutionMapping) (g : Graph) :
    List SolutionMapping :=
  match items with
  | [] => omega
  | it :: rest =>
      if evalNegItem it omega g = [] then []
      else evalNegSeq rest (evalNegItem it omega g) g

/-- `eval_body_element(element, omega, graph)`:
patterns join with `graphMatch`; filters keep the mappings whose
expression has EBV true; `NOT` evaluates its sub-body seeded with each
outer mapping, pools all inner solutions, and removes the outer
mappings compatible with any of them; `BIND` drops a mapping on an
error value or an already-bound variable and extends it otherwise. -/
def evalBodyElement (el : BodyElement) (omega : List SolutionMapping) (g : Graph) :
    List SolutionMapping :=
  match el with
  | .pattern tp => join omega (graphMatch g tp)
  | .filter e => omega.filter (fun mu => effectiveBooleanValue (evalExpr e mu))
  | .negation body =>
      minus omega (omega.flatMap (fun mu => evalNegSeq body [mu] g))
  | .bind v e =>
      omega.filterMap (fun mu =>
        match evalExpr e mu with
        | none => none
        | some t => if (lookupSM mu v).isSome then none else some (extend mu v t))

/-- The body loop of `eval_rule`, with the early `break` on an empty
solution list. -/
def evalElementSeq (els : List BodyElement) (omega : List SolutionMapping) (g : Graph) :
    List SolutionMapping :=
  match els with
  | [] => omega
  | el :: rest =>
      if evalBodyElement el omega g = [] then []
      else evalElementSeq rest (evalBodyElement el omega g) g

/-- `eval_rule(rule, graph)`: start from the single empty mapping. -/
def evalRule (rule : Rule) (g : Graph) : List SolutionMapping :=
  evalElementSeq rule.body [([] : SolutionMapping)] g

/-! ### Stratification (`stratification.py`) -/

/-- `StrataInfo` (dependency sets are lists of rule indices in
ascending order, matching iteration over small CPython int sets). -/
structure StrataInfo where
  ruleIndex : Nat
  stratum : Int
  dependsOn : List Nat
  negDependsOn : List Nat
deriving DecidableEq, Repr

instance : Inhabited StrataInfo := ⟨⟨0, -1, [], []⟩⟩

def addUniq (l : List String) (s : String) : List String :=
  if s ∈ l then l else l ++ [s]

/-- `extract_head_predicates(rule)`: predicate IRIs of head templates,
with `*` for a variable predicate. -/
def extractHeadPredicates (rule : Rule) : List String :=
  rule.head.foldl
    (fun acc tpl =>
      match tpl.predicate with
      | .avar _ => addUniq acc "*"
      | .airi v => addUniq acc v
      | _ => acc)
    []

def patternPred (acc : List String) (tp : TriplePattern) : List String :=
  match tp.predicate with
  | .avar _ => addUniq acc "*"
  | .airi v => addUniq acc v
  | _ => acc

/-- `extract_body_predicates(rule, negated)`: predicates of top-level
positive patterns, or of the triple patterns directly inside negation
elements. -/
def extractBodyPredicates (rule : Rule) (negated : Bool) : List String :=
  rule.body.foldl
    (fun acc el =>
      if negated then
        match el with
        | .negation pats =>
            pats.foldl
              (fun a p => match p with | .pattern tp => patternPred a tp | _ => a)
              acc
        | _ => acc
      else
        match el with
        | .pattern tp => patternPred acc tp
        | _ => acc)
    []

/-- `predicates_overlap(preds1, preds2)`. -/
def predicatesOverlap (p1 p2 : List String) : Bool :=
  "*" ∈ p1 || "*" ∈ p2 || p1.any (· ∈ p2)

/-- `compute_dependencies(rules)`: for each rule `i`, the rules `j ≠ i`
whose head predicates could match `i`'s positive body patterns
(positive edge) or the patterns inside `i`'s negations (negative
edge). -/
def computeDependencies (rules : List Rule) : List StrataInfo :=
  rules.enum.map (fun p =>
    let i := p.1
    let rule := p.2
    let bodyPreds := extractBodyPredicates rule false
    let negBodyPreds := extractBodyPredicates rule true
    let dependsOn := rules.enum.foldl
      (fun acc q =>
        if i = q.1 then acc
        else if predicatesOverlap (extractHeadPredicates q.2) bodyPreds then acc ++ [q.1]
        else acc)
      []
    let negDependsOn := rules.enum.foldl
      (fun acc q =>
        if i = q.1 then acc
        else if predicatesOverlap (extractHeadPredicates q.2) negBodyPreds then acc ++ [q.1]
        else acc)
      []
    ⟨i, -1, dependsOn, negDependsOn⟩)

/-- The mutable DFS bookkeeping of `detect_negation_cycles`: the
`state` array (0 unvisited, 1 visiting, 2 visited) and the current
`path`. -/
structure DfsState where
  visitState : List Nat
  path : List Nat
deriving DecidableEq, Repr

def getState (st : List Nat) (i : Nat) : Nat := (st.get? i).getD 0

/-- `cycle = path[path.index(neighbor):]`; the cycle contains a
negative edge when some consecutive pair (wrapping around) is in
`neg_edges`. -/
def cycleHasNegEdge (cycle : List Nat) (negEdges : List (Nat × Nat)) : Bool :=
  (List.range cycle.length).any (fun i =>
    match cycle.get? i, cycle.get? ((i + 1) % cycle.length) with
    | some c, some nx => (c, nx) ∈ negEdges
    | _, _ => false)

def pathIndexOf (path : List Nat) (x : Nat) : Nat :=
  match path with
  | [] => 0
  | y :: rest => if y = x then 0 else pathIndexOf rest x + 1

/-- A pending call of the `dfs` recursion of
`detect_negation_cycles`: the visit of a node, the loop over its
positive dependencies, or the loop over its negative dependencies. -/
inductive DfsCall where
  | visit (node : Nat) (negEdges : List (Nat × Nat))
  | posLoop (nbrs : List Nat) (negEdges : List (Nat × Nat))
  | negLoop (node : Nat) (nbrs : List Nat) (negEdges : List (Nat × Nat))

/-- The recursive `dfs(node, path, neg_edges)` of
`detect_negation_cycles`, defined on an explicit recursion budget
(the Python recursion is finite; `dfsFuel` below over-approximates its
call depth, so the budget is never exhausted).  A visit marks the node
visiting, pushes it on the path, runs the positive loop (a back edge
to a visiting node closes a cycle, which errors iff some consecutive
pair of the cycle is a negative edge of the current path), then the
negative loop (the traversed edge joins `neg_edges` for the recursive
call; a back edge errors immediately), then pops the path and marks
the node visited. -/
def dfsRun (deps : List StrataInfo) : Nat → DfsCall → DfsState → Except String DfsState
  | 0, _, s => .ok s
  | fuel + 1, call, s =>
      match call with
      | .visit node negEdges =>
          let s1 : DfsState := ⟨s.visitState.set node 1, s.path ++ [node]⟩
          let info := (deps.get? node).getD default
          match dfsRun deps fuel (.posLoop info.dependsOn negEdges) s1 with
          | .error e => .error e
          | .ok s2 =>
              match dfsRun deps fuel (.negLoop node info.negDependsOn negEdges) s2 with
              | .error e => .error e
              | .ok s3 => .ok ⟨s3.visitState.set node 2, s3.path.dropLast⟩
      | .posLoop nbrs negEdges =>
          match nbrs with
          | [] => .ok s
          | nb :: rest =>
              let st := getState s.visitState nb
              if st = 1 then
                let cycle := s.path.drop (pathIndexOf s.path nb)
                if cycleHasNegEdge cycle negEdges then
                  .error "Cycle through negation detected"
                else dfsRun deps fuel (.posLoop rest negEdges) s
              else if st = 0 then
                match dfsRun deps fuel (.visit nb negEdges) s with
                | .error e => .error e
                | .ok s1 => dfsRun deps fuel (.posLoop rest negEdges) s1
              else dfsRun deps fuel (.posLoop rest negEdges) s
      | .negLoop node nbrs negEdges =>
          match nbrs with
          | [] => .ok s
          | nb :: rest =>
              let st := getState s.visitState nb
              if st = 1 then .error "Cycle through negation detected (negative edge)"
              else if st = 0 then
                match dfsRun deps fuel (.visit nb (negEdges ++ [(node, nb)])) s with
                | .error e => .error e
                | .ok s1 => dfsRun deps fuel (.negLoop node rest negEdges) s1
              else dfsRun deps fuel (.negLoop node rest negEdges) s

/-- A budget larger than the deepest possible nesting of `dfs` calls
(each node is visited at most once; every call level is a visit or a
loop step over at most `n` neighbours). -/
def dfsFuel (deps : List StrataInfo) : Nat :=
  4 * (deps.length + 2) * (deps.length + 2)

/-- The driver loop of `detect_negation_cycles`: run the DFS from each
still-unvisited rule index (each root starts with a fresh path and
edge set; the visit states persist). -/
def detectLoop (deps : List StrataInfo) (roots : List Nat) (s : DfsState) :
    Except String DfsState :=
  match roots with
  | [] => .ok s
  | i :: rest =>
      if getState s.visitState i = 0 then
        match dfsRun deps (dfsFuel deps) (.visit i []) ⟨s.visitState, []⟩ with
        | .error e => .error e
        | .ok s1 => detectLoop deps rest s1
      else detectLoop deps rest s

/-- `detect_negation_cycles(dependencies)`: raises (returns `.error`)
iff the DFS finds a cycle through negation. -/
def detectNegationCycles (deps : List StrataInfo) : Except String Unit :=
  match detectLoop deps (List.range deps.length) ⟨List.replicate deps.length 0, []⟩ with
  | .error e => .error e
  | .ok _ => .ok ()

/-- One `for i in range(n)` sweep of the relaxation in
`assign_strata`, threading the stratum array and the `changed` flag
(updates are visible to later indices of the same sweep). -/
def assignSweep (deps : List StrataInfo) (n : Nat) : List Int × Bool → List Int × Bool :=
  fun start =>
    (List.range n).foldl
      (fun acc i =>
        let st := acc.1
        let info := (deps.get? i).getD default
        let current := (st.get? i).getD 0
        let maxDep := info.negDependsOn.foldl
          (fun m d => max m ((st.get? d).getD 0))
          (info.dependsOn.foldl (fun m d => max m ((st.get? d).getD 0)) (-1))
        let required := if maxDep ≥ 0 then maxDep + 1 else 0
        if required > current then (st.set i required, true) else acc)
      start

/-- The `while changed and iteration < max_iterations` loop of
`assign_strata` (at most `n + 1` sweeps; on non-convergence the code
silently stops rather than signalling). -/
def assignLoop (deps : List StrataInfo) (n : Nat) : Nat → List Int → List Int
  | 0, stratum => stratum
  | fuel + 1, stratum =>
      let (stratum1, changed) := assignSweep deps n (stratum, false)
      if changed then assignLoop deps n fuel stratum1 else stratum1

/-- `assign_strata(dependencies, n)`: relax stratum numbers (note the
code requires a strictly higher stratum for positive dependencies,
exactly as for negative ones), then group rule indices by stratum. -/
def assignStrata (deps : List StrataInfo) (n : Nat) : List (List Nat) :=
  let stratum := assignLoop deps n (n + 1) (List.replicate n (0 : Int))
  let maxStratum := stratum.foldl max 0
  (List.range (maxStratum.toNat + 1)).map (fun s =>
    (List.range n).filter (fun i => (stratum.get? i).getD 0 = (s : Int)))

/-- `stratify_rules(rule_set)`: dependencies, negation-cycle
detection, stratum assignment. -/
def stratifyRules (rs : RuleSet) : Except String (List (List Nat)) :=
  if rs.length = 0 then .ok []
  else
    let deps := computeDependencies rs
    match detectNegationCycles deps with
    | .error e => .error e
    | .ok _ => .ok (assignStrata deps rs.length)

/-! ### Fixpoint driver (`engine.py`) -/

/-- `RuleEngine._evaluate_single_rule(rule, graph)`: instantiate the
head templates on every body solution, collecting the results as a set
(modelled as a duplicate-free list). -/
def evaluateSingleRule (rule : Rule) (g : Graph) : List Triple :=
  (evalRule rule g).foldl
    (fun acc mu =>
      rule.head.foldl
        (fun acc2 tpl =>
          match substituteTripleTemplate tpl mu with
          | some t => if t ∈ acc2 then acc2 else acc2 ++ [t]
          | none => acc2)
        acc)
    []

/-- One iteration's delta graph: the new triples of every rule of the
stratum that are not already in the working graph. -/
def stratumDelta (rs : RuleSet) (ruleIndices : List Nat) (g : Graph) : Graph :=
  ruleIndices.foldl
    (fun delta i =>
      match rs.get? i with
      | none => delta
      | some rule =>
          (evaluateSingleRule rule g).foldl
            (fun d t => if t ∈ g then d else addTriple d t)
            delta)
    []

/-- The `while iteration < self.max_iterations` loop of
`_evaluate_stratum`, returning the final graph and the final value of
the `iteration` counter (it breaks as soon as an iteration produces an
empty delta).  `fuel` counts the remaining permitted iterations: with
the invariant `iteration + fuel = max_iterations` of the call below,
`fuel > 0` is exactly the loop condition `iteration < max_iterations`. -/
def stratumLoop (rs : RuleSet) (ruleIndices : List Nat) :
    Nat → Graph → Nat → Graph × Nat
  | 0, g, iteration => (g, iteration)
  | fuel + 1, g, iteration =>
      let delta := stratumDelta rs ruleIndices g
      if delta = [] then (g, iteration + 1)
      else stratumLoop rs ruleIndices fuel (delta.foldl addTriple g) (iteration + 1)

/-- `RuleEngine._evaluate_stratum`: run the loop from iteration 0; the
non-fatal warning fires iff the final counter is `>= max_iterations`. -/
def evaluateStratum (rs : RuleSet) (ruleIndices : List Nat) (maxIter : Nat)
    (g : Graph) : Graph × Bool :=
  let r := stratumLoop rs ruleIndices maxIter g 0
  (r.1, decide (r.2 ≥ maxIter))

/-- The `max_iterations` default of `RuleEngine.__init__`. -/
def defaultMaxIterations : Nat := 1000

def configErrorMsg : String :=
  "If you set results_only=True then you must not also select inplace=True"

/-- `RuleEngine.evaluate(graph, inplace, results_only)`: the
configuration check comes first, then stratification, then each
stratum is evaluated in order; with `results_only` the input triples
are subtracted from the result. -/
def evaluate (rs : RuleSet) (maxIter : Nat) (inplace resultsOnly : Bool)
    (g : Graph) : Except String Graph :=
  if inplace && resultsOnly then .error configErrorMsg
  else
    match stratifyRules rs with
    | .error e => .error e
    | .ok strata =>
        let g1 := strata.foldl (fun gr idxs => (evaluateStratum rs idxs maxIter gr).1) g
        if resultsOnly then .ok (g1.filter (fun t => !(decide (t ∈ g))))
        else .ok g1

/-- `evaluate_rules(rule_set, graph)` with the default options
(`inplace=True`, `results_only=False`, `max_iterations=1000`). -/
def evaluateDefault (rs : RuleSet) (g : Graph) : Except String Graph :=
  evaluate rs defaultMaxIterations true false g

/-- One delta-then-add step of a stratum iteration (the body of the
`while` loop when the delta is non-empty). -/
def stratumStep (rs : RuleSet) (ruleIndices : List Nat) (g : Graph) : Graph :=
  (stratumDelta rs ruleIndices g).foldl addTriple g

/-! ### Concrete inputs used by the claim theorems -/

/-- Rule `(?x p2 ?y) :- (?x p1 ?y)`. -/
def c1r1 : Rule :=
  ⟨[⟨.avar "x", .airi "p2", .avar "y"⟩], [.pattern ⟨.avar "x", .airi "p1", .avar "y"⟩]⟩

/-- Rule `(?x p1 ?z) :- (?x p2 ?y), (?y p2 ?z)`. -/
def c1r2 : Rule :=
  ⟨[⟨.avar "x", .airi "p1", .avar "z"⟩],
   [.pattern ⟨.avar "x", .airi "p2", .avar "y"⟩,
    .pattern ⟨.avar "y", .airi "p2", .avar "z"⟩]⟩

/-- Two rules that positively depend on each other. -/
def c1rules : RuleSet := [c1r1, c1r2]

/-- A `p2`-chain `a → b → c → d`. -/
def c1graph : Graph :=
  [(.uri "a", .uri "p2", .uri "b"), (.uri "b", .uri "p2", .uri "c"),
   (.uri "c", .uri "p2", .uri "d")]

def c1g1 : Graph := (evaluateDefault c1rules c1graph).toOption.getD []

def c1g2 : Graph := (evaluateDefault c1rules c1g1).toOption.getD []

/-- Rule `(?x q ?y) :- (?x p ?y), NOT { (?x2 p ?y2) }`: it depends on
`c2rB` both positively and negatively. -/
def c2rA : Rule :=
  ⟨[⟨.avar "x", .airi "q", .avar "y"⟩],
   [.pattern ⟨.avar "x", .airi "p", .avar "y"⟩,
    .negation [.pattern ⟨.avar "x2", .airi "p", .avar "y2"⟩]]⟩

/-- Rule `(?x p ?y) :- (?x q ?y)`: it depends positively on `c2rA`. -/
def c2rB : Rule :=
  ⟨[⟨.avar "x", .airi "p", .avar "y"⟩], [.pattern ⟨.avar "x", .airi "q", .avar "y"⟩]⟩

/-- A rule set whose dependency graph has the cycle
`0 → 1 → 0` with the negative edge `(0, 1)`. -/
def c2rules : RuleSet := [c2rA, c2rB]

/-- The inner negation body `FILTER(?x = "a")` used against mixed-domain
outer mappings. -/
def c5inner : List NegItem :=
  [.filter (.bin .opEq (.evar "x") (.cst (.alit "a" none none)))]

/-- Outer solutions: the empty mapping and one binding `x`. -/
def c5omega : List SolutionMapping :=
  [[], [("x", RDFNode.lit ⟨"a", none, none, .pystr "a"⟩)]]

def c10graph : Graph := [(.uri "a", .uri "p", .uri "b")]

/-- The pattern `(?x p ?x)` with a repeated variable. -/
def c10tp : TriplePattern := ⟨.avar "x", .airi "p", .avar "x"⟩

/-- `s` binds everything `m` binds, to the same terms. -/
def smExtends (s m : SolutionMapping) : Prop :=
  ∀ k v, lookupSM m k = some v → lookupSM s k = some v

/-! ### Helper lemmas -/

lemma compatible_nil_right (mu : SolutionMapping) : compatible mu [] = true := by
  simp [compatible, lookupSM]

lemma mergeDicts_nil_right (mu : SolutionMapping) : mergeDicts mu [] = mu := by
  simp [mergeDicts, lookupSM]

lemma merge_nil_right (mu : SolutionMapping) : merge mu [] = some mu := by
  simp [merge, compatible_nil_right, mergeDicts_nil_right]

lemma mem_addTriple {x : Triple} {g : Graph} (t : Triple) (h : x ∈ g) : x ∈ addTriple g t := by
  unfold addTriple
  split
  · exact h
  · exact List.mem_append_left _ h

lemma mem_foldl_addTriple (delta : List Triple) : ∀ {g : Graph} {x : Triple},
    x ∈ g → x ∈ delta.foldl addTriple g := by
  induction delta with
  | nil => intro g x h; exact h
  | cons d rest ih => intro g x h; exact ih (mem_addTriple d h)

lemma mem_stratumLoop (rs : RuleSet) (idxs : List Nat) :
    ∀ (fuel : Nat) (g : Graph) (it : Nat) {x : Triple},
      x ∈ g → x ∈ (stratumLoop rs idxs fuel g it).1 := by
  intro fuel
  induction fuel with
  | zero => intro g it x h; exact h
  | succ f ih =>
      intro g it x h
      rw [stratumLoop]
      split
      · exact h
      · exact ih _ _ (mem_foldl_addTriple _ h)

lemma mem_strataFoldl (rs : RuleSet) (maxIter : Nat) (strata : List (List Nat)) :
    ∀ {g : Graph} {x : Triple},
      x ∈ g → x ∈ strata.foldl (fun gr idxs => (evaluateStratum rs idxs maxIter gr).1) g := by
  induction strata with
  | nil => intro g x h; exact h
  | cons idxs rest ih =>
      intro g x h
      exact ih (mem_stratumLoop rs idxs maxIter g 0 h)

lemma stratumLoop_counter (rs : RuleSet) (idxs : List Nat) :
    ∀ (fuel : Nat) (g : Graph) (it : Nat),
      ((stratumLoop rs idxs fuel g it).2 < it + fuel ↔
        ∃ j, j + 1 < fuel ∧ stratumDelta rs idxs ((stratumStep rs idxs)^[j] g) = []) := by
  intro fuel
  induction fuel with
  | zero => intro g it; simp [stratumLoop]
  | succ f ih =>
      intro g it
      rw [stratumLoop]
      by_cases h : stratumDelta rs idxs g = []
      · rw [if_pos h]
        constructor
        · intro hlt
          refine ⟨0, ?_, by simpa using h⟩
          omega
        · rintro ⟨j, hj, _⟩
          omega
      · rw [if_neg h]
        have step1 : List.foldl addTriple g (stratumDelta rs idxs g) = stratumStep rs idxs g := rfl
        rw [step1]
        have lhs_eq : it + (f + 1) = (it + 1) + f := by omega
        rw [lhs_eq, ih (stratumStep rs idxs g) (it + 1)]
        constructor
        · rintro ⟨j, hj, hd⟩
          refine ⟨j + 1, by omega, ?_⟩
          rw [Function.iterate_succ_apply]
          exact hd
        · rintro ⟨j, hj, hd⟩
          cases j with
          | zero => simp at hd; exact absurd hd h
          | succ j1 =>
              refine ⟨j1, by omega, ?_⟩
              rw [Function.iterate_succ_apply] at hd
              exact hd

lemma smExtends_refl (m : SolutionMapping) : smExtends m m := fun _ _ h => h

lemma smExtends_trans {a b c : SolutionMapping} (h1 : smExtends a b) (h2 : smExtends b c) :
    smExtends a c := fun k v h => h1 k v (h2 k v h)

lemma lookupSM_append (m1 m2 : SolutionMapping) (k : String) :
    lookupSM (m1 ++ m2) k =
      (match lookupSM m1 k with
       | some v => some v
       | none => lookupSM m2 k) := by
  induction m1 with
  | nil => rfl
  | cons kv t ih =>
      obtain ⟨k1, v1⟩ := kv
      by_cases h : k1 = k
      · simp [lookupSM, h]
      · simp [lookupSM, h, ih]

lemma lookupSM_mergeDicts_map (m1 m2 : SolutionMapping) (k : String) :
    lookupSM (m1.map (fun kv => (kv.1, (lookupSM m2 kv.1).getD kv.2))) k =
      (lookupSM m1 k).map (fun v => (lookupSM m2 k).getD v) := by
  induction m1 with
  | nil => rfl
  | cons kv t ih =>
      obtain ⟨k1, v1⟩ := kv
      by_cases h : k1 = k
      · subst h; simp [lookupSM]
      · simp [lookupSM, h, ih]

lemma lookupSM_mem {m : SolutionMapping} {k : String} {v : RDFNode}
    (h : lookupSM m k = some v) : (k, v) ∈ m := by
  induction m with
  | nil => simp [lookupSM] at h
  | cons kv t ih =>
      obtain ⟨k1, v1⟩ := kv
      by_cases hk : k1 = k
      · subst hk
        simp [lookupSM] at h
        subst h
        exact List.mem_cons_self _ _
      · simp [lookupSM, hk] at h
        exact List.mem_cons_of_mem _ (ih h)

lemma lookupSM_of_mem_nodup {m : SolutionMapping} (hnd : (m.map Prod.fst).Nodup)
    {k : String} {v : RDFNode} (h : (k, v) ∈ m) : lookupSM m k = some v := by
  induction m with
  | nil => simp at h
  | cons kv t ih =>
      obtain ⟨k1, v1⟩ := kv
      simp only [List.map_cons, List.nodup_cons] at hnd
      rcases List.mem_cons.mp h with heq | hmem
      · injection heq with hk hv
        subst hk; subst hv
        simp [lookupSM]
      · have hk1 : k1 ≠ k := by
          intro hc
          subst hc
          exact hnd.1 (List.mem_map.mpr ⟨(k1, v), hmem, rfl⟩)
        simp [lookupSM, hk1]
        exact ih hnd.2 hmem

lemma compatible_entry {m1 m2 : SolutionMapping} (h : compatible m1 m2 = true)
    {k : String} {v : RDFNode} (hm : (k, v) ∈ m1) :
    lookupSM m2 k = none ∨ lookupSM m2 k = some v := by
  unfold compatible at h
  rw [List.all_eq_true] at h
  have hx := h (k, v) hm
  cases hl : lookupSM m2 k with
  | none => exact Or.inl rfl
  | some w =>
      rw [hl] at hx
      simp only [decide_eq_true_eq] at hx
      exact Or.inr (by rw [hx])

lemma merge_extends_left {m1 m2 s : SolutionMapping} (h : merge m1 m2 = some s) :
    smExtends s m1 := by
  unfold merge at h
  split at h
  case isTrue hc =>
    injection h with hs
    subst hs
    intro k v hkv
    unfold mergeDicts
    rw [lookupSM_append, lookupSM_mergeDicts_map, hkv]
    rcases compatible_entry hc (lookupSM_mem hkv) with hn | hs
    · simp [hn]
    · simp [hs]
  case isFalse => exact absurd h (by simp)

lemma evalNegItem_extends {it : NegItem} {omega : List SolutionMapping} {g : Graph}
    {s : SolutionMapping} (h : s ∈ evalNegItem it omega g) :
    ∃ m ∈ omega, smExtends s m := by
  cases it with
  | pattern tp =>
      unfold evalNegItem join at h
      rw [List.mem_flatMap] at h
      obtain ⟨m1, hm1, hs⟩ := h
      rw [List.mem_filterMap] at hs
      obtain ⟨m2, _, hmerge⟩ := hs
      exact ⟨m1, hm1, merge_extends_left hmerge⟩
  | filter e =>
      unfold evalNegItem at h
      rw [List.mem_filter] at h
      exact ⟨s, h.1, smExtends_refl s⟩

lemma evalNegSeq_extends {items : List NegItem} :
    ∀ {omega : List SolutionMapping} {g : Graph} {s : SolutionMapping},
      s ∈ evalNegSeq items omega g → ∃ m ∈ omega, smExtends s m := by
  induction items with
  | nil => intro omega g s h; exact ⟨s, h, smExtends_refl s⟩
  | cons it rest ih =>
      intro omega g s h
      rw [evalNegSeq] at h
      split at h
      · simp_all
      · obtain ⟨m1, hm1, hext1⟩ := ih h
        obtain ⟨m, hm, hext⟩ := evalNegItem_extends hm1
        exact ⟨m, hm, smExtends_trans hext1 hext⟩

lemma compatible_of_extends {mu s : SolutionMapping} (hnd : (mu.map Prod.fst).Nodup)
    (h : smExtends s mu) : compatible mu s = true := by
  unfold compatible
  rw [List.all_eq_true]
  rintro ⟨k, v⟩ hm
  have : lookupSM s k = some v := h k v (lookupSM_of_mem_nodup hnd hm)
  simp [this]

lemma compatible_false_of_extends {mu mup s : SolutionMapping}
    (hc : compatible mu mup = false) (h : smExtends s mup) : compatible mu s = false := by
  unfold compatible at hc ⊢
  rw [Bool.eq_false_iff] at hc ⊢
  intro hall
  apply hc
  rw [List.all_eq_true] at hall ⊢
  rintro ⟨k, v⟩ hm
  have hx := hall (k, v) hm
  cases hl : lookupSM mup k with
  | none => simp
  | some w =>
      have hsk : lookupSM s k = some w := h k w hl
      rw [hsk] at hx
      simp only [decide_eq_true_eq] at hx
      simp [hl, hx]

lemma isNumeric_eq_false_of_strOrNone {l : RDFLit} (h : dtStrOrNone l.dt = true) :
    isNumeric l = false := by
  unfold dtStrOrNone at h
  unfold isNumeric
  cases hd : l.dt with
  | none => rfl
  | some d =>
      rw [hd] at h
      have hds : d = xsdString := of_decide_eq_true h
      subst hds
      decide

lemma mem_minus {mu : SolutionMapping} {o1 o2 : List SolutionMapping} :
    mu ∈ minus o1 o2 ↔ mu ∈ o1 ∧ ∀ s ∈ o2, compatible mu s = false := by
  unfold minus
  rw [List.mem_filter]
  simp only [Bool.not_eq_eq_eq_not, Bool.not_true, List.any_eq_false]
  constructor
  · rintro ⟨h1, h2⟩
    exact ⟨h1, fun s hs => Bool.eq_false_iff.mpr (h2 s hs)⟩
  · rintro ⟨h1, h2⟩
    exact ⟨h1, fun s hs => Bool.eq_false_iff.mp (h2 s hs)⟩

/-! ### Claim theorems -/

/-- C1: the spec requires `evaluate(R, evaluate(R, G)) = evaluate(R, G)`
as sets of triples, in particular for mutually positively dependent
rules.  On `c1rules` (a positive two-rule cycle) and the chain
`c1graph`, the code's stratum relaxation (which demands a strictly
higher stratum even for positive edges and silently stops after `n+1`
sweeps) puts the two rules into different strata, and a second
`evaluate` call adds the triple `(a, p2, c)` that the first call
missed — the first call does not reach a fixpoint. -/
theorem c1_idempotence_failure :
    (evaluateDefault c1rules c1graph).toOption.isSome = true ∧
    (evaluateDefault c1rules c1g1).toOption.isSome = true ∧
    (RDFNode.uri "a", RDFNode.uri "p2", RDFNode.uri "c") ∈ c1g2 ∧
    (RDFNode.uri "a", RDFNode.uri "p2", RDFNode.uri "c") ∉ c1g1 := by
  refine ⟨by decide, by decide, by decide, by decide⟩

/-- C2: the spec requires `StratificationError` to be raised exactly
when the dependency graph has a cycle through a negative edge.  On
`c2rules` the computed dependencies contain the cycle `0 → 1 → 0`
whose edge `(0, 1)` is negative (rule 0 depends on rule 1 both
positively and negatively), yet `stratify_rules` returns normally: the
DFS walks the positive `0 → 1` edge first, marks rule 1 visited, and
then skips the negative edge to the already-visited node. -/
theorem c2_negation_cycle_missed :
    computeDependencies c2rules =
      [⟨0, -1, [1], [1]⟩, ⟨1, -1, [0], []⟩] ∧
    (stratifyRules c2rules).toOption.isSome = true := by
  refine ⟨by decide, by decide⟩

/-- C3 counterexample: the claim says a comparison of two IRIs yields
an error, surfacing as EBV false, so the mapping is dropped.  In the
code `rdf_compare` falls back to Python string comparison: the filter
`FILTER(<http://a> < <http://b>)` evaluates to the boolean literal
`true` and the mapping is retained. -/
theorem c3_iri_comparison_counterexample :
    evalExpr (.bin .opLt (.cst (.airi "http://a")) (.cst (.airi "http://b"))) [] =
      some (boolLit true) ∧
    evalBodyElement
      (.filter (.bin .opLt (.cst (.airi "http://a")) (.cst (.airi "http://b"))))
      [[]] [] = [[]] := by
  refine ⟨by decide, by decide⟩

/-- C4 counterexample: the claim says a non-zero literal of any
numeric datatype, such as `xsd:int`, has EBV true.  The code's
`effective_boolean_value` only recognises `xsd:integer/decimal/double/
float` and falls through to `False` for `"5"^^xsd:int`, even though
the code's own `is_numeric` counts `xsd:int` as numeric and rdflib
parses its value as the integer 5. -/
theorem c4_xsd_int_counterexample :
    effectiveBooleanValue (some (.lit (mkTypedLit "5" xsdInt))) = false ∧
    (mkTypedLit "5" xsdInt).value = PyVal.pyint 5 ∧
    isNumeric (mkTypedLit "5" xsdInt) = true := by
  refine ⟨by decide, by decide, by decide⟩

/-- C5 counterexample: the claim says an outer mapping whose own
seeded inner evaluation is empty is retained regardless of the other
seeds.  Seeding the inner body `FILTER(?x = "a")` with the empty
mapping yields no solutions (the unbound `?x` is an error, EBV false),
yet the empty mapping is removed, because the code pools the inner
solutions of all seeds and the empty mapping is compatible with the
solution contributed by the other seed. -/
theorem c5_seeding_counterexample :
    evalNegSeq c5inner [[]] [] = [] ∧
    evalBodyElement (.negation c5inner) c5omega [] = [] := by
  refine ⟨by decide, by decide⟩

/-- C7: `evaluate` with `inplace=True` and `results_only=True` raises
the configuration `ValueError` before stratification or any rule
evaluation, for every rule set, iteration cap and graph — so the input
graph is untouched. -/
theorem c7_config_rejection (rs : RuleSet) (maxIter : Nat) (g : Graph) :
    evaluate rs maxIter true true g = .error configErrorMsg := rfl

/-- C8 counterexample: the claim says the warning fires iff the
stratum fails to reach a fixpoint within the cap.  With cap 1 and no
rules, the single permitted iteration produces an empty delta — the
fixpoint is reached within the cap — yet the final counter equals the
cap and the warning fires. -/
theorem c8_warning_at_cap_counterexample :
    (evaluateStratum [] [] 1 []).2 = true ∧ stratumDelta [] [] [] = [] := by
  refine ⟨by decide, by decide⟩

/-- C10: the claim (and `graphMatch`'s own docstring) require every
returned mapping to instantiate the pattern to a triple of the graph.
For the pattern `(?x p ?x)` against the graph containing only
`(a, p, b)`, the code queries with two independent wildcards and the
object binding overwrites the subject binding: it returns the mapping
`x ↦ b`, whose instantiation `(b, p, b)` is not in the graph. -/
theorem c10_graphmatch_unsound :
    graphMatch c10graph c10tp = [[("x", RDFNode.uri "b")]] ∧
    substituteTripleTemplate c10tp [("x", RDFNode.uri "b")] =
      some (RDFNode.uri "b", RDFNode.uri "p", RDFNode.uri "b") ∧
    (RDFNode.uri "b", RDFNode.uri "p", RDFNode.uri "b") ∉ c10graph := by
  refine ⟨by decide, by decide, by decide⟩

/-- C6: the algebra identities of the solution-mapping operations:
joining with the empty solution list (on either side) gives the empty
list; the singleton of the empty mapping is a right identity of
`join`; `minus` with the empty list removes nothing; `minus` with the
singleton of the empty mapping removes everything, since every mapping
is compatible with the empty mapping. -/
theorem c6_algebra_identities (omega : List SolutionMapping) :
    join omega [] = [] ∧ join [] omega = [] ∧ join omega [[]] = omega ∧
    minus omega [] = omega ∧ minus omega [[]] = [] := by
  refine ⟨?_, ?_, ?_, ?_, ?_⟩
  · simp [join]
  · simp [join]
  · simp [join, merge_nil_right]
  · simp [minus]
  · simp [minus, compatible_nil_right]

/-- C5 (amended): for a negation element evaluated against outer
mappings that are pairwise equal or incompatible and have
duplicate-free keys — both invariants of the solution lists the body
evaluator produces — an outer mapping is removed iff the inner
evaluation seeded with that same mapping yields at least one solution.
(Without the pairwise condition the pooled `minus` can also remove an
outer mapping that is merely compatible with another seed's inner
solution; see the counterexample.) -/
theorem c5_negation_amended (g : Graph) (elems : List NegItem)
    (omega : List SolutionMapping) (mu : SolutionMapping)
    (hnd : ∀ m ∈ omega, (m.map Prod.fst).Nodup)
    (hpw : ∀ m1 ∈ omega, ∀ m2 ∈ omega, m1 = m2 ∨ compatible m1 m2 = false) :
    mu ∈ evalBodyElement (.negation elems) omega g ↔
      mu ∈ omega ∧ evalNegSeq elems [mu] g = [] := by
  have hunf : evalBodyElement (.negation elems) omega g =
      minus omega (omega.flatMap (fun m => evalNegSeq elems [m] g)) := rfl
  rw [hunf, mem_minus]
  constructor
  · rintro ⟨hmem, hall⟩
    refine ⟨hmem, ?_⟩
    by_contra hne
    obtain ⟨s, hs⟩ := List.exists_mem_of_ne_nil _ hne
    have hres : s ∈ omega.flatMap (fun m => evalNegSeq elems [m] g) :=
      List.mem_flatMap.mpr ⟨mu, hmem, hs⟩
    have hext : smExtends s mu := by
      obtain ⟨m, hm, he⟩ := evalNegSeq_extends hs
      rw [List.mem_singleton] at hm
      subst hm
      exact he
    have hcomp := compatible_of_extends (hnd mu hmem) hext
    rw [hall s hres] at hcomp
    exact absurd hcomp (by simp)
  · rintro ⟨hmem, hemp⟩
    refine ⟨hmem, ?_⟩
    intro s hs
    rw [List.mem_flatMap] at hs
    obtain ⟨m1, hm1, hsm⟩ := hs
    rcases hpw mu hmem m1 hm1 with heq | hcomp
    · subst heq
      rw [hemp] at hsm
      simp at hsm
    · obtain ⟨m, hm, hext⟩ := evalNegSeq_extends hsm
      rw [List.mem_singleton] at hm
      subst hm
      exact compatible_false_of_extends hcomp hext

/-- Witness for C5 (amended) at a concrete input: a single outer
mapping binding `x`, whose seeded inner evaluation of the pattern
`(?x p ?z)` is non-empty, so it is removed. -/
theorem c5_negation_amended_witness :
    ([("x", RDFNode.uri "a")] : SolutionMapping) ∉
      evalBodyElement (.negation [.pattern ⟨.avar "x", .airi "p", .avar "z"⟩])
        [[("x", RDFNode.uri "a")]] [(.uri "a", .uri "p", .uri "b")] := by
  intro hmem
  have h := (c5_negation_amended [(.uri "a", .uri "p", .uri "b")]
      [.pattern ⟨.avar "x", .airi "p", .avar "z"⟩]
      [[("x", RDFNode.uri "a")]] [("x", RDFNode.uri "a")]
      (by decide) (by decide)).mp hmem
  have h2 := h.2
  revert h2
  decide

/-- C8 (amended): the default cap is 1000, and the warning is
suppressed iff some iteration strictly before the cap-th one produces
an empty delta: equivalently, the warning fires iff the loop runs the
full cap of iterations, including the case where the cap-th iteration
itself finds the fixpoint (the counterexample).  The driver never
raises; it returns the partial graph. -/
theorem c8_warning_iff (rs : RuleSet) (idxs : List Nat) (maxIter : Nat) (g : Graph) :
    defaultMaxIterations = 1000 ∧
    ((evaluateStratum rs idxs maxIter g).2 = false ↔
      ∃ j, j + 1 < maxIter ∧ stratumDelta rs idxs ((stratumStep rs idxs)^[j] g) = []) := by
  refine ⟨rfl, ?_⟩
  unfold evaluateStratum
  simp only [decide_eq_false_iff_not, not_le]
  have h := stratumLoop_counter rs idxs maxIter g 0
  rw [Nat.zero_add] at h
  exact h

/-- C9: evaluation with the default options is monotone: every triple
of the input graph is in the returned graph (the driver only ever adds
triples). -/
theorem c9_monotonicity (rs : RuleSet) (g gOut : Graph)
    (h : evaluateDefault rs g = Except.ok gOut) :
    ∀ t ∈ g, t ∈ gOut := by
  intro t ht
  unfold evaluateDefault evaluate at h
  simp only [Bool.and_false, Bool.false_eq_true, if_false] at h
  cases hst : stratifyRules rs with
  | error e => rw [hst] at h; exact absurd h (by simp)
  | ok strata =>
      rw [hst] at h
      simp only [if_neg] at h
      have hg : strata.foldl
          (fun gr idxs => (evaluateStratum rs idxs defaultMaxIterations gr).1) g = gOut :=
        Except.ok.inj h
      rw [← hg]
      exact mem_strataFoldl rs defaultMaxIterations strata ht

/-- C3 (amended): comparison before the relational operators is by
numeric value when both operands are numeric literals (the folded sign
determines each of the four operators via the last clause); for every
other pair of operands — string literals, two IRIs, or a mixed
literal/IRI pair — it falls back to codepoint-lexicographic comparison
of the operands' string forms and never yields an error, so the filter
keeps or drops the mapping according to that string comparison rather
than always dropping it. -/
theorem c3_compare_amended :
    (∀ (l1 l2 : RDFLit) (q1 q2 : ℚ), isNumeric l1 = true → isNumeric l2 = true →
        numericValue l1 = some (NumV.num q1) → numericValue l2 = some (NumV.num q2) →
        ∃ c, rdfCompare (.lit l1) (.lit l2) = some c ∧
          (c < 0 ↔ q1 < q2) ∧ (0 < c ↔ q2 < q1) ∧ (c = 0 ↔ q1 = q2)) ∧
    (∀ l1 l2 : RDFLit, dtStrOrNone l1.dt = true → dtStrOrNone l2.dt = true →
        rdfCompare (.lit l1) (.lit l2) = some (strCompare l1.lex l2.lex)) ∧
    (∀ s1 s2 : String, rdfCompare (.uri s1) (.uri s2) = some (strCompare s1 s2)) ∧
    (∀ (s : String) (l : RDFLit),
        rdfCompare (.uri s) (.lit l) = some (strCompare s l.lex) ∧
        rdfCompare (.lit l) (.uri s) = some (strCompare l.lex s)) ∧
    (∀ (a b : RDFNode) (c : Int), rdfCompare a b = some c →
        applyCmpOp .opLt a b = some (boolLit (decide (c < 0))) ∧
        applyCmpOp .opLe a b = some (boolLit (decide (c ≤ 0))) ∧
        applyCmpOp .opGt a b = some (boolLit (decide (0 < c))) ∧
        applyCmpOp .opGe a b = some (boolLit (decide (0 ≤ c)))) := by
  refine ⟨?_, ?_, ?_, ?_, ?_⟩
  · intro l1 l2 q1 q2 h1 h2 h3 h4
    have hrc : rdfCompare (.lit l1) (.lit l2) = some (numCompare (.num q1) (.num q2)) := by
      simp [rdfCompare, h1, h2, h3, h4]
    refine ⟨numCompare (.num q1) (.num q2), hrc, ?_, ?_, ?_⟩
    · unfold numCompare
      rcases lt_trichotomy q1 q2 with h | h | h
      · simp [h]
      · simp [h, lt_irrefl]
      · simp [not_lt.mpr (le_of_lt h), h, asymm h]
    · unfold numCompare
      rcases lt_trichotomy q1 q2 with h | h | h
      · simp [h, asymm h]
      · simp [h, lt_irrefl]
      · simp [not_lt.mpr (le_of_lt h), h]
    · unfold numCompare
      rcases lt_trichotomy q1 q2 with h | h | h
      · simp [h, ne_of_lt h]
      · simp [h, lt_irrefl]
      · simp [not_lt.mpr (le_of_lt h), h, (ne_of_lt h).symm]
  · intro l1 l2 h1 h2
    simp [rdfCompare, isNumeric_eq_false_of_strOrNone h1]
  · intro s1 s2
    rfl
  · intro s l
    exact ⟨rfl, rfl⟩
  · intro a b c h
    unfold applyCmpOp
    rw [h]
    exact ⟨rfl, rfl, rfl, rfl⟩

/-- Witness for C3 (amended) at concrete inputs, discharging the
numeric and string-datatype hypotheses. -/
theorem c3_compare_amended_witness :
    (rdfCompare (RDFNode.lit (mkTypedLit "2" xsdInteger))
        (RDFNode.lit (mkTypedLit "3" xsdInteger))).isSome = true ∧
    rdfCompare (RDFNode.lit ⟨"a", none, none, PyVal.pystr "a"⟩)
        (RDFNode.lit ⟨"b", none, none, PyVal.pystr "b"⟩) = some (strCompare "a" "b") ∧
    applyCmpOp .opLt (RDFNode.uri "u") (RDFNode.uri "v") =
      some (boolLit (decide ((strCompare "u" "v") < 0))) := by
  refine ⟨?_, ?_, ?_⟩
  · obtain ⟨c, hc, _⟩ := c3_compare_amended.1 (mkTypedLit "2" xsdInteger)
      (mkTypedLit "3" xsdInteger) 2 3 (by decide) (by decide) (by decide) (by decide)
    rw [hc]
    rfl
  · exact c3_compare_amended.2.1 _ _ (by decide) (by decide)
  · exact (c3_compare_amended.2.2.2.2 _ _ (strCompare "u" "v")
      (c3_compare_amended.2.2.1 "u" "v")).1

/-- C4 (amended): the effective boolean value is the stored boolean
for `xsd:boolean` literals; non-emptiness of the lexical form for
`xsd:string` and datatype-less (plain or language-tagged) literals;
zero/NaN-falsity for literals whose datatype is exactly one of
`xsd:integer`, `xsd:decimal`, `xsd:double`, `xsd:float`; and false for
absent values, every other datatype (including the other numeric
datatypes such as `xsd:int` and `xsd:long`, even with a non-zero
value), IRIs and blank nodes. -/
theorem c4_ebv_amended :
    effectiveBooleanValue none = false ∧
    (∀ (l : RDFLit) (b : Bool), l.dt = some xsdBoolean → l.value = PyVal.pybool b →
        effectiveBooleanValue (some (.lit l)) = b) ∧
    (∀ l : RDFLit, l.dt = some xsdString ∨ l.dt = none →
        effectiveBooleanValue (some (.lit l)) = decide (l.lex ≠ "")) ∧
    (∀ (l : RDFLit) (n : Int),
        (l.dt = some xsdInteger ∨ l.dt = some xsdDecimal ∨
          l.dt = some xsdDouble ∨ l.dt = some xsdFloat) →
        l.value = PyVal.pyint n →
        effectiveBooleanValue (some (.lit l)) = decide (n ≠ 0)) ∧
    (∀ (l : RDFLit) (q : ℚ) (nb : Bool),
        (l.dt = some xsdInteger ∨ l.dt = some xsdDecimal ∨
          l.dt = some xsdDouble ∨ l.dt = some xsdFloat) →
        l.value = PyVal.pyfloat q nb →
        effectiveBooleanValue (some (.lit l)) = (!nb && decide (q ≠ 0))) ∧
    (∀ (l : RDFLit) (d : String), l.dt = some d →
        d ≠ xsdBoolean → d ≠ xsdString → d ≠ xsdInteger → d ≠ xsdDecimal →
        d ≠ xsdDouble → d ≠ xsdFloat →
        effectiveBooleanValue (some (.lit l)) = false) ∧
    (∀ s, effectiveBooleanValue (some (.uri s)) = false) ∧
    (∀ s, effectiveBooleanValue (some (.bnode s)) = false) := by
  have hsb : xsdString ≠ xsdBoolean := by decide
  have hib : xsdInteger ≠ xsdBoolean := by decide
  have hdb : xsdDecimal ≠ xsdBoolean := by decide
  have hdob : xsdDouble ≠ xsdBoolean := by decide
  have hfb : xsdFloat ≠ xsdBoolean := by decide
  have his : xsdInteger ≠ xsdString := by decide
  have hds : xsdDecimal ≠ xsdString := by decide
  have hdos : xsdDouble ≠ xsdString := by decide
  have hfs : xsdFloat ≠ xsdString := by decide
  refine ⟨rfl, ?_, ?_, ?_, ?_, ?_, fun s => rfl, fun s => rfl⟩
  · intro l b hdt hv
    simp [effectiveBooleanValue, hdt, hv]
  · intro l hdt
    rcases hdt with h | h
    · simp [effectiveBooleanValue, h, hsb]
    · simp [effectiveBooleanValue, h]
  · intro l n hdt hv
    have hcast : ((n : ℚ) ≠ 0) = (n ≠ 0) := by
      simp [Int.cast_eq_zero]
    rcases hdt with h | h | h | h <;>
      simp [effectiveBooleanValue, h, hv, floatOfPy, hib, hdb, hdob, hfb, his, hds, hdos, hfs,
        hcast]
  · intro l q nb hdt hv
    rcases hdt with h | h | h | h <;>
      cases nb <;>
        simp [effectiveBooleanValue, h, hv, floatOfPy, hib, hdb, hdob, hfb, his, hds, hdos, hfs]
  · intro l d hdt h1 h2 h3 h4 h5 h6
    simp [effectiveBooleanValue, hdt, h1, h2, h3, h4, h5, h6]

/-- Witness for C4 (amended): the other-datatype clause applied to
`"7"^^xsd:long`. -/
theorem c4_ebv_amended_witness :
    effectiveBooleanValue (some (.lit (mkTypedLit "7" xsdLong))) = false := by
  have h := (c4_ebv_amended.2.2.2.2.2.1) (mkTypedLit "7" xsdLong) xsdLong rfl
    (by decide) (by decide) (by decide) (by decide) (by decide) (by decide)
  exact h

/-- Witness for C9 at a concrete input: the empty rule set over a
one-triple graph returns the graph itself, which contains the
triple. -/
theorem c9_monotonicity_witness :
    (RDFNode.uri "s", RDFNode.uri "p", RDFNode.uri "o") ∈
      (evaluateDefault [] [(RDFNode.uri "s", RDFNode.uri "p", RDFNode.uri "o")]).toOption.getD [] := by
  have h : evaluateDefault ([] : RuleSet) [(RDFNode.uri "s", RDFNode.uri "p", RDFNode.uri "o")] =
      Except.ok [(RDFNode.uri "s", RDFNode.uri "p", RDFNode.uri "o")] := rfl
  rw [h]
  exact c9_monotonicity [] _ _ h _ (List.mem_singleton.mpr rfl)

end SRL
